import Mathlib

/-!
Shallow embedding of the call-session bridge of the voice_ai_openai
repository: the Twilio media-stream handshake (`WebSocketManager.connect`),
the realtime event loop of `RealtimeService.handle_realtime_events`
(transcript reconciliation, placeholder timers, error classification),
the connection retry loop of `RealtimeService.initialize_session`, and the
teardown block of `WebSocketManager.handle_stream` together with the
persistence handoff to `RealtimeStorageService.store_realtime_conversation`.
-/

namespace VoiceBridge

/-- Payload carried under the `start` key of a Twilio start frame.
`streamSid = none` models a payload whose `streamSid` key is absent
(indexing it raises `KeyError`); `callSid` is read with `.get`, so an
absent key simply yields `none`. -/
structure StartPayload where
  streamSid : Option String
  callSid : Option String
deriving DecidableEq, Repr

/-- A successfully parsed JSON frame from the Twilio media stream.
`ev` models `data.get('event')` (`none` = no `event` key); `start` models
the presence and value of the `start` key. -/
structure Frame where
  ev : Option String
  start : Option StartPayload
deriving DecidableEq, Repr

/-- A raw inbound WebSocket text message: either text that `json.loads`
rejects, or a parsed frame. -/
inductive WireMsg where
  | malformed : WireMsg
  | json : Frame → WireMsg
deriving DecidableEq, Repr

/-- Exceptions that can be raised inside the `try` body of
`WebSocketManager.connect`: a failed `receive_text` (client disconnect /
end of stream), a `json.loads` failure, and a `KeyError` from indexing
`data['start']` or `data['start']['streamSid']`. -/
inductive PyExc where
  | receiveErr : PyExc
  | jsonErr : PyExc
  | keyErr : PyExc
deriving DecidableEq, Repr

/-- One `await websocket.receive_text()`: yields the next message and the
remaining stream, or raises when the stream is exhausted. -/
def receiveText : List WireMsg → Except PyExc (WireMsg × List WireMsg)
  | [] => .error .receiveErr
  | m :: rest => .ok (m, rest)

/-- `json.loads` on a received text message. -/
def jsonLoads : WireMsg → Except PyExc Frame
  | .malformed => .error .jsonErr
  | .json f => .ok f

/-- The `if data.get('event') == 'start'` tail of `connect`: extracts
`data['start']['streamSid']` (raising `KeyError` when a key is missing)
and `data['start'].get('callSid')`; any other event type returns
`(None, None)`. -/
def startExtract (f : Frame) : Except PyExc (Option String × Option String) :=
  if f.ev = some "start" then
    match f.start with
    | none => .error .keyErr
    | some p =>
      match p.streamSid with
      | none => .error .keyErr
      | some sid => .ok (some sid, p.callSid)
  else .ok (none, none)

/-- The `try` body of `WebSocketManager.connect` (the path with no
`stream_sid` argument): read one message; if it is a `connected` event,
read a second message; then apply the `start` extraction to the message
in hand. -/
def connectBody (msgs : List WireMsg) : Except PyExc (Option String × Option String) :=
  match receiveText msgs with
  | .error e => .error e
  | .ok (m1, rest) =>
    match jsonLoads m1 with
    | .error e => .error e
    | .ok d1 =>
      if d1.ev = some "connected" then
        match receiveText rest with
        | .error e => .error e
        | .ok (m2, _) =>
          match jsonLoads m2 with
          | .error e => .error e
          | .ok d2 => startExtract d2
      else
        startExtract d1

/-- `WebSocketManager.connect`: every exception raised in the body is
caught by the surrounding `except` handlers, which return `(None, None)`. -/
def connect (msgs : List WireMsg) : Option String × Option String :=
  match connectBody msgs with
  | .ok r => r
  | .error _ => (none, none)

/-- A frame that carries a usable `start` payload: event type `start`
with a `start` object holding a `streamSid`. -/
def isStartOk : WireMsg → Bool
  | .json f =>
    f.ev == some "start" &&
      (match f.start with
       | some p => p.streamSid.isSome
       | none => false)
  | .malformed => false

/-- A frame whose event type is `connected`. -/
def isConnectedEvt : WireMsg → Bool
  | .json f => f.ev == some "connected"
  | .malformed => false

/-- The protocol of the spec, stated independently of `connect`: the
handshake is observed when the first frame is a usable start frame, or the
first frame is a `connected` acknowledgement and the second is a usable
start frame. -/
def handshakeObserved : List WireMsg → Bool
  | [] => false
  | m :: rest =>
    isStartOk m ||
      (isConnectedEvt m &&
        (match rest with
         | m2 :: _ => isStartOk m2
         | [] => false))

/-- One entry of `RealtimeService.conversation_history`: a dict with a
`role`, a `content` string, and an optional `item_id` key (the delta
handler and the assistant handler append entries without an `item_id`
key; the completed handler and the placeholder task set it). -/
structure Entry where
  role : String
  content : String
  item_id : Option String
deriving DecidableEq, Repr

/-- Lookup in an insertion-ordered association list, modelling a Python
dict read (`d[k]` / `k in d`). -/
def alistGet {α : Type} (l : List (String × α)) (k : String) : Option α :=
  match l with
  | [] => none
  | (k2, v) :: rest => if k2 = k then some v else alistGet rest k

/-- Write to an insertion-ordered association list, modelling a Python
dict assignment `d[k] = v` (updates in place, appends when new). -/
def alistSet {α : Type} (l : List (String × α)) (k : String) (v : α) :
    List (String × α) :=
  match l with
  | [] => [(k, v)]
  | (k2, v2) :: rest =>
    if k2 = k then (k2, v) :: rest else (k2, v2) :: alistSet rest k v

/-- Delete a key from an association list, modelling `del d[k]`. -/
def alistDel {α : Type} (l : List (String × α)) (k : String) :
    List (String × α) :=
  l.filter (fun p => p.1 != k)

/-- The mutable state of `RealtimeService.handle_realtime_events`: the
local `transcripts_by_item` dict and `self.conversation_history`. -/
structure RTState where
  transcripts_by_item : List (String × String)
  conversation_history : List Entry
deriving DecidableEq, Repr

/-- Handler for `conversation.item.input_audio_transcription.delta`:
accumulates the fragment under `item_id` in `transcripts_by_item`, and in
the history either appends a fresh user entry (without `item_id`) when
the last entry is not a user entry, or appends the text to the last
entry's content. -/
def stepUserDelta (st : RTState) (item_id delta : String) : RTState :=
  let tbi :=
    match alistGet st.transcripts_by_item item_id with
    | none => alistSet st.transcripts_by_item item_id delta
    | some cur => alistSet st.transcripts_by_item item_id (cur ++ delta)
  let hist :=
    match st.conversation_history.getLast? with
    | some e =>
      if e.role = "user" then
        st.conversation_history.dropLast ++ [{ e with content := e.content ++ delta }]
      else
        st.conversation_history ++ [⟨"user", delta, none⟩]
    | none => st.conversation_history ++ [⟨"user", delta, none⟩]
  ⟨tbi, hist⟩

/-- Handler for `response.audio_transcript.delta` (the agent transcript):
appends a fresh assistant entry when the last entry is not an assistant
entry, otherwise appends the text to the last entry's content. -/
def stepAssistantDelta (st : RTState) (delta : String) : RTState :=
  let hist :=
    match st.conversation_history.getLast? with
    | some e =>
      if e.role = "assistant" then
        st.conversation_history.dropLast ++ [{ e with content := e.content ++ delta }]
      else
        st.conversation_history ++ [⟨"assistant", delta, none⟩]
    | none => st.conversation_history ++ [⟨"assistant", delta, none⟩]
  ⟨st.transcripts_by_item, hist⟩

/-- The search loop of the
`conversation.item.input_audio_transcription.completed` handler: walk the
history in order; on the first user entry whose `item_id` matches,
replace its content and stop; on a user entry whose content already
equals the transcript, stop without changing anything; return `none` when
no entry matched (the handler then appends). -/
def completedScan : List Entry → String → String → Option (List Entry)
  | [], _, _ => none
  | e :: rest, item_id, transcript =>
    if e.role = "user" then
      if e.item_id = some item_id then
        some ({ e with content := transcript } :: rest)
      else if e.content = transcript then
        some (e :: rest)
      else
        match completedScan rest item_id transcript with
        | some r => some (e :: r)
        | none => none
    else
      match completedScan rest item_id transcript with
      | some r => some (e :: r)
      | none => none

/-- Handler for `conversation.item.input_audio_transcription.completed`:
overwrites `transcripts_by_item[item_id]`, then replaces the matching
history entry in place, or appends a new user entry carrying the
`item_id` when no entry matched. -/
def stepUserCompleted (st : RTState) (item_id transcript : String) : RTState :=
  let tbi := alistSet st.transcripts_by_item item_id transcript
  let hist :=
    match completedScan st.conversation_history item_id transcript with
    | some h => h
    | none => st.conversation_history ++ [⟨"user", transcript, some item_id⟩]
  ⟨tbi, hist⟩

/-- The reversed scan of `add_placeholder_after_delay` picking the last
assistant entry's content (empty string when there is none). -/
def lastAssistantMsg (h : List Entry) : String :=
  match h.reverse.find? (fun e => e.role == "assistant") with
  | some e => e.content
  | none => ""

/-- The placeholder string synthesized by `add_placeholder_after_delay`,
including the `[Responding to: ...]` context when a last assistant
message exists. -/
def placeholderText (h : List Entry) : String :=
  let last := lastAssistantMsg h
  let context :=
    if last ≠ "" then "[Responding to: \x27" ++ last.take 30 ++ "...\x27]" else ""
  "[User response not transcribed " ++ context ++ "]"

/-- The `user_msg_exists` check of `add_placeholder_after_delay`. -/
def userMsgExists (h : List Entry) (item_id : String) : Bool :=
  h.any (fun e => e.role == "user" && e.item_id == some item_id)

/-- Body of `add_placeholder_after_delay` at the moment its 2-second
timer fires: when no transcript has been tracked for `item_id` (key
absent or empty) and no user entry for it exists, append the placeholder
turn tagged with `item_id` and record it in `transcripts_by_item`. -/
def stepPlaceholderTimer (st : RTState) (item_id : String) : RTState :=
  let missing :=
    match alistGet st.transcripts_by_item item_id with
    | none => true
    | some s => s == ""
  if missing then
    if userMsgExists st.conversation_history item_id then st
    else
      let ph := placeholderText st.conversation_history
      ⟨alistSet st.transcripts_by_item item_id ph,
       st.conversation_history ++ [⟨"user", ph, some item_id⟩]⟩
  else st

/-- Typed backend events consumed by `handle_realtime_events`, one
constructor per dispatched `type` string. -/
inductive RTEvent where
  | errorEvt (code : Option String)
  | responseDone
  | audioDelta (delta : String)
  | assistantDelta (delta : String)
  | userDelta (item_id delta : String)
  | userCompleted (item_id transcript : String)
  | speechStarted
  | speechStopped
  | committed (item_id : Option String)
deriving DecidableEq, Repr

/-- Side effects performed by the event loop: sleeps, closing the backend
socket, forwarding audio to Twilio via the callback, and scheduling an
`add_placeholder_after_delay` task. -/
inductive LoopAction where
  | sleepMs (ms : Nat)
  | closeConn
  | sendTwilio (audio : String)
  | startPlaceholderTimer (item_id : String)
deriving DecidableEq, Repr

/-- The recoverable-error set of the `error` branch in
`handle_realtime_events`. -/
def recoverableError (code : Option String) : Bool :=
  code == some "server_error" || code == some "rate_limit_exceeded"

/-- State threaded through the event loop: the reconciliation state, the
presence of the backend connection, and the `shutting_down` flag. -/
structure LoopState where
  rt : RTState
  ws_connected : Bool
  shutting_down : Bool
deriving DecidableEq, Repr

/-- `RealtimeService._prepare_shutdown`: sleep about one second to let
in-flight audio finish, then close the backend connection when one is
still present. -/
def prepareShutdown (ws_connected : Bool) : List LoopAction :=
  .sleepMs 1000 :: (if ws_connected then [.closeConn] else [])

/-- The dispatch loop of `handle_realtime_events` over a finite stream of
backend events, returning the final state and the emitted actions. A
recoverable error is logged and the loop continues; any other error code
sets `shutting_down`, performs the graceful drain and breaks out of the
loop, leaving later events unprocessed. -/
def runEvents (st : LoopState) : List RTEvent → LoopState × List LoopAction
  | [] => (st, [])
  | e :: rest =>
    if st.shutting_down then runEvents st rest
    else
      match e with
      | .errorEvt code =>
        if recoverableError code then runEvents st rest
        else ({ st with shutting_down := true }, prepareShutdown st.ws_connected)
      | .responseDone =>
        let r := runEvents st rest
        (r.1, .sleepMs 1000 :: r.2)
      | .audioDelta d =>
        let r := runEvents st rest
        (r.1, .sendTwilio d :: r.2)
      | .assistantDelta d => runEvents { st with rt := stepAssistantDelta st.rt d } rest
      | .userDelta i d => runEvents { st with rt := stepUserDelta st.rt i d } rest
      | .userCompleted i t => runEvents { st with rt := stepUserCompleted st.rt i t } rest
      | .committed item =>
        match item with
        | some i =>
          let r := runEvents st rest
          (r.1, .startPlaceholderTimer i :: r.2)
        | none => runEvents st rest
      | .speechStarted => runEvents st rest
      | .speechStopped => runEvents st rest

/-- Fixed retry bound of `initialize_session` (`max_retries = 3`). -/
def max_retries : Nat := 3

/-- The connection retry loop of `initialize_session`, fuelled by the
remaining permitted iterations: `outcome i` tells whether the i-th
`websockets.connect` attempt succeeds or raises. Returns
`(connection_success, attempts made, backoff sleeps performed)`; a
backoff sleep happens only when another attempt is still allowed. -/
def connectRetryLoopAux (outcome : Nat → Bool) : Nat → Nat → Bool × Nat × Nat
  | 0, _ => (false, 0, 0)
  | fuel + 1, retry_count =>
    if retry_count < max_retries then
      if outcome retry_count then (true, 1, 0)
      else
        let r := connectRetryLoopAux outcome fuel (retry_count + 1)
        (r.1, r.2.1 + 1, r.2.2 + (if retry_count + 1 < max_retries then 1 else 0))
    else (false, 0, 0)

/-- The retry loop started at `retry_count = 0`; the loop body runs at
most `max_retries` times since `retry_count` grows by one per failed
attempt. -/
def connectRetryLoop (outcome : Nat → Bool) : Bool × Nat × Nat :=
  connectRetryLoopAux outcome max_retries 0

/-- `RealtimeService.initialize_session`: returns `False` (rather than
raising — the whole body sits in a `try` whose handler also returns
`False`) when the retry loop exhausts without a connection; on success
the configuration is sent and it returns `True`. -/
def initialize_session (outcome : Nat → Bool) : Bool :=
  (connectRetryLoop outcome).1

/-- The two per-direction audio chunk lists kept for a call in
`WebSocketManager.audio_chunks`. -/
structure AudioChunks where
  user : List String
  assistant : List String
deriving DecidableEq, Repr

/-- The per-call slice of a `RealtimeService` that teardown reads. -/
structure RTServiceState where
  conversation_history : List Entry
  business_type : String
  ws_connected : Bool
deriving DecidableEq, Repr

/-- Parameter count of
`RealtimeStorageService.store_realtime_conversation` beyond `self`:
`call_sid`, `conversation_history` and the optional `audio_chunks`. -/
def store_realtime_conversation_params : Nat := 3

/-- Number of positional arguments the teardown block of
`WebSocketManager.handle_stream` passes to the persistence handoff:
`call_sid`, the conversation history, the audio chunks and
`business_type`. -/
def handle_stream_store_args : Nat := 4

/-- Python raises `TypeError` at call time when a call supplies more
positional arguments than the callee accepts, so the handoff body never
runs when the call site passes an extra argument. -/
def store_call_raises_type_error : Bool :=
  decide (store_realtime_conversation_params < handle_stream_store_args)

/-- Counters describing what one run of the teardown block did. -/
structure TeardownEffects where
  close_calls : Nat
  store_calls_attempted : Nat
  store_calls_completed : Nat
deriving DecidableEq, Repr

/-- The process-wide tables of `WebSocketManager`: Twilio connections by
stream SID, realtime services and audio chunks by call SID. -/
structure WSManager where
  active_connections : List String
  realtime_services : List (String × RTServiceState)
  audio_chunks : List (String × AudioChunks)
deriving DecidableEq, Repr

/-- The `finally` block of `WebSocketManager.handle_stream`: when the
call still has a registered service, close the backend session, attempt
the persistence handoff (only when the conversation history is
non-empty; the invocation raises `TypeError` because of the extra
`business_type` argument, which the surrounding `except` catches and
logs) and delete the service entry; then delete the audio chunks entry
and the Twilio connection entry. -/
def teardownSession (m : WSManager) (call_sid stream_sid : String) :
    WSManager × TeardownEffects :=
  match alistGet m.realtime_services call_sid with
  | some svc =>
    let close_calls := if svc.ws_connected then 1 else 0
    let attempted := if svc.conversation_history.isEmpty then 0 else 1
    let completed := if store_call_raises_type_error then 0 else attempted
    (⟨m.active_connections.filter (fun s => s != stream_sid),
      alistDel m.realtime_services call_sid,
      alistDel m.audio_chunks call_sid⟩,
     ⟨close_calls, attempted, completed⟩)
  | none =>
    (⟨m.active_connections.filter (fun s => s != stream_sid),
      m.realtime_services,
      alistDel m.audio_chunks call_sid⟩,
     ⟨0, 0, 0⟩)

/-- Caller-observable actions of `handle_stream`: a message spoken to the
caller through the call-control collaborator, or a log line. -/
inductive BridgeAction where
  | say (text : String)
  | logError (tag : String)
deriving DecidableEq, Repr

/-- Whether an action speaks to the caller. -/
def BridgeAction.isSay : BridgeAction → Bool
  | .say _ => true
  | .logError _ => false

/-- `WebSocketManager.handle_stream` on the path where
`initialize_session` returns `False`: the service is created and
registered, the audio chunk lists are initialized, the handler logs the
failure and returns, and the `finally` block tears the session down.
The source plays no message to the caller on this path. -/
def handleStreamInitFailure (m : WSManager) (call_sid stream_sid : String)
    (svc : RTServiceState) : WSManager × TeardownEffects × List BridgeAction :=
  let m1 : WSManager :=
    ⟨m.active_connections, alistSet m.realtime_services call_sid svc, m.audio_chunks⟩
  let m2 : WSManager :=
    if (alistGet m1.audio_chunks call_sid).isSome then m1
    else ⟨m1.active_connections, m1.realtime_services,
          alistSet m1.audio_chunks call_sid ⟨[], []⟩⟩
  let r := teardownSession m2 call_sid stream_sid
  (r.1, r.2, [.logError "failed_to_initialize_session"])

/-- C5: the handshake accept operation, given a `connected` frame followed
by a `start` frame, returns exactly the `(streamSid, callSid)` strings
carried in the start payload; given a `start` frame with no preceding
`connected` frame it also succeeds with the same extracted identifiers. -/
theorem connect_handshake_extracts_ids (sid csid : String) (rest : List WireMsg) :
    connect (.json ⟨some "connected", none⟩ :: .json ⟨some "start", some ⟨some sid, some csid⟩⟩ :: rest)
        = (some sid, some csid)
    ∧ connect (.json ⟨some "start", some ⟨some sid, some csid⟩⟩ :: rest) = (some sid, some csid) :=
  ⟨rfl, rfl⟩

/-- C6: for every inbound frame sequence in which the expected
connected/start handshake sequence is not observed, `connect` returns
`(None, None)` (the "no session" result); moreover `connect` never
inspects more than the first two frames, so it does not wait for further
frames. -/
theorem connect_fails_without_handshake (msgs : List WireMsg) :
    (handshakeObserved msgs = false → connect msgs = (none, none))
    ∧ connect msgs = connect (msgs.take 2) := by
  have single : ∀ (m : WireMsg) (tail : List WireMsg),
      isStartOk m = false → ¬ isConnectedEvt m = true → connect (m :: tail) = (none, none) := by
    intro m tail hm hmc
    match m with
    | .malformed => rfl
    | .json f =>
      have hc : ¬ f.ev = some "connected" := by
        intro hev
        exact hmc (by simp [isConnectedEvt, hev])
      by_cases hs : f.ev = some "start"
      · match hst : f.start with
        | none => simp [connect, connectBody, receiveText, jsonLoads, startExtract, hc, hs, hst]
        | some p =>
          match hsid : p.streamSid with
          | none =>
            simp [connect, connectBody, receiveText, jsonLoads, startExtract, hc, hs, hst, hsid]
          | some s =>
            exfalso
            rw [isStartOk, hst] at hm
            simp [hs, hsid] at hm
      · simp [connect, connectBody, receiveText, jsonLoads, startExtract, hc, hs]
  match msgs with
  | [] => exact ⟨fun _ => rfl, rfl⟩
  | [m1] =>
    refine ⟨fun h => ?_, rfl⟩
    simp only [handshakeObserved, Bool.or_eq_false_iff, Bool.and_eq_false_iff] at h
    by_cases hc : isConnectedEvt m1 = true
    · match m1 with
      | .malformed => rfl
      | .json f =>
        have hev : f.ev = some "connected" := by
          simpa [isConnectedEvt] using hc
        simp [connect, connectBody, receiveText, jsonLoads, hev]
    · exact single m1 [] h.1 hc
  | m1 :: m2 :: rest =>
    have htail : connect (m1 :: m2 :: rest) = connect [m1, m2] := by
      match m1 with
      | .malformed => rfl
      | .json f =>
        by_cases hc : f.ev = some "connected" <;>
          simp [connect, connectBody, receiveText, jsonLoads, hc]
    refine ⟨fun h => ?_, htail⟩
    rw [htail]
    simp only [handshakeObserved, Bool.or_eq_false_iff, Bool.and_eq_false_iff] at h
    rcases h with ⟨h1, h2⟩
    by_cases hc : isConnectedEvt m1 = true
    · match m1 with
      | .json f =>
        have hev : f.ev = some "connected" := by
          simpa [isConnectedEvt] using hc
        have h2s : isStartOk m2 = false := by
          rcases h2 with h2 | h2
          · rw [h2] at hc
            exact absurd hc (by simp)
          · exact h2
        match m2 with
        | .malformed => simp [connect, connectBody, receiveText, jsonLoads, hev]
        | .json g =>
          by_cases hgs : g.ev = some "start"
          · match hst : g.start with
            | none =>
              simp [connect, connectBody, receiveText, jsonLoads, startExtract, hev, hgs, hst]
            | some p =>
              match hsid : p.streamSid with
              | none =>
                simp [connect, connectBody, receiveText, jsonLoads, startExtract, hev, hgs,
                  hst, hsid]
              | some s =>
                exfalso
                rw [isStartOk, hst] at h2s
                simp [hgs, hsid] at h2s
          · simp [connect, connectBody, receiveText, jsonLoads, startExtract, hev, hgs]
    · exact single m1 [m2] h1 hc

/-- C10: the handshake accept operation is total over its input: a
malformed (non-JSON) first frame, an unexpected event type, a start frame
with no `start` payload or without `streamSid` all return `(None, None)`
normally; a start frame carrying `streamSid` but no `callSid` succeeds
with `callId = None`; and every exception raised inside the body is
caught, so `connect` always returns a pair. -/
theorem connect_total_over_input :
    (∀ rest, connect (.malformed :: rest) = (none, none))
    ∧ (∀ f rest, f.ev ≠ some "start" → f.ev ≠ some "connected" →
        connect (.json f :: rest) = (none, none))
    ∧ (∀ cs rest, connect (.json ⟨some "start", some ⟨none, cs⟩⟩ :: rest) = (none, none))
    ∧ (∀ rest, connect (.json ⟨some "start", none⟩ :: rest) = (none, none))
    ∧ (∀ sid rest, connect (.json ⟨some "start", some ⟨some sid, none⟩⟩ :: rest) = (some sid, none))
    ∧ (∀ msgs, connectBody msgs = .ok (connect msgs)
        ∨ ∃ e, connectBody msgs = .error e ∧ connect msgs = (none, none)) := by
  refine ⟨fun rest => rfl, ?_, fun cs rest => rfl, fun rest => rfl, fun sid rest => rfl, ?_⟩
  · intro f rest hs hc
    simp [connect, connectBody, receiveText, jsonLoads, startExtract, hs, hc]
  · intro msgs
    match h : connectBody msgs with
    | .ok r => exact .inl (by simp [connect, h])
    | .error e => exact .inr ⟨e, rfl, by simp [connect, h]⟩

/-- Witness for `connect_total_over_input`: a first frame with event type
`media` (neither `start` nor `connected`) yields `(None, None)`. -/
theorem connect_total_over_input_witness :
    connect [.json ⟨some "media", none⟩] = (none, none) :=
  connect_total_over_input.2.1 ⟨some "media", none⟩ [] (by decide) (by decide)

/-- Witness for `connect_fails_without_handshake`: a lone `connected`
frame never followed by `start` yields `(None, None)`. -/
theorem connect_fails_without_handshake_witness :
    handshakeObserved [.json ⟨some "connected", none⟩] = false
    ∧ connect [.json ⟨some "connected", none⟩] = (none, none) :=
  ⟨by decide, (connect_fails_without_handshake [.json ⟨some "connected", none⟩]).1 (by decide)⟩

theorem stepUserDelta_hist (st : RTState) (T d : String) :
    (stepUserDelta st T d).conversation_history =
      match st.conversation_history.getLast? with
      | some e =>
        if e.role = "user" then
          st.conversation_history.dropLast ++ [{ e with content := e.content ++ d }]
        else
          st.conversation_history ++ [⟨"user", d, none⟩]
      | none => st.conversation_history ++ [⟨"user", d, none⟩] := rfl

theorem stepUserCompleted_hist (st : RTState) (T t : String) :
    (stepUserCompleted st T t).conversation_history =
      match completedScan st.conversation_history T t with
      | some h => h
      | none => st.conversation_history ++ [⟨"user", t, some T⟩] := rfl

theorem completedScan_eq_none (l : List Entry) (T t : String)
    (h : ∀ e ∈ l, e.role = "user" → e.item_id ≠ some T ∧ e.content ≠ t) :
    completedScan l T t = none := by
  induction l with
  | nil => rfl
  | cons e rest ih =>
    have he := h e (List.mem_cons_self e rest)
    have hrest := ih (fun e2 hm => h e2 (List.mem_cons_of_mem e hm))
    unfold completedScan
    by_cases hr : e.role = "user"
    · rcases he hr with ⟨h1, h2⟩
      simp [hr, h1, h2, hrest]
    · simp [hr, hrest]

theorem completedScan_append_match (l : List Entry) (T c t : String)
    (h : ∀ e ∈ l, e.role = "user" → e.item_id ≠ some T ∧ e.content ≠ t) :
    completedScan (l ++ [⟨"user", c, some T⟩]) T t
      = some (l ++ [⟨"user", t, some T⟩]) := by
  induction l with
  | nil => simp [completedScan]
  | cons e rest ih =>
    have he := h e (List.mem_cons_self e rest)
    have hrest := ih (fun e2 hm => h e2 (List.mem_cons_of_mem e hm))
    simp only [List.cons_append]
    unfold completedScan
    by_cases hr : e.role = "user"
    · rcases he hr with ⟨h1, h2⟩
      simp [hr, h1, h2, hrest]
    · simp [hr, hrest]

/-- C4: processing two non-final transcript deltas with the same `turnId`
(from a history not currently ending in a user turn) appends exactly one
user turn whose text is the concatenation of the two fragments in arrival
order. -/
theorem user_delta_pair_concat (st : RTState) (T d1 d2 : String)
    (h : ∀ e, st.conversation_history.getLast? = some e → ¬ e.role = "user") :
    (stepUserDelta (stepUserDelta st T d1) T d2).conversation_history
      = st.conversation_history ++ [⟨"user", d1 ++ d2, none⟩] := by
  have h1 : (stepUserDelta st T d1).conversation_history
      = st.conversation_history ++ [⟨"user", d1, none⟩] := by
    rw [stepUserDelta_hist]
    match hl : st.conversation_history.getLast? with
    | none => rfl
    | some e => simp [h e hl]
  rw [stepUserDelta_hist, h1]
  simp [List.getLast?_concat, List.dropLast_concat]

/-- Witness for `user_delta_pair_concat`: two fragments from the empty
history yield the single concatenated user turn. -/
theorem user_delta_pair_concat_witness :
    (stepUserDelta (stepUserDelta ⟨[], []⟩ "item_1" "hel") "item_1" "lo").conversation_history
      = [⟨"user", "hello", none⟩] := by
  rw [user_delta_pair_concat ⟨[], []⟩ "item_1" "hel" "lo" (by intro e he; simp at he)]
  rfl

/-- C3 counterexample: a `final=true` transcript (the `completed` handler)
for `item_1` followed by a non-final delta for the same `item_1` leaves
the turn's text equal to the concatenation, not to the second delta's
text: the delta handler appends by role and ignores `item_id`. -/
theorem finalized_then_delta_appends :
    (stepUserDelta (stepUserCompleted ⟨[], []⟩ "item_1" "hello") "item_1"
        " world").conversation_history
      = [⟨"user", "hello world", some "item_1"⟩]
    ∧ "hello world" ≠ " world" := by
  exact ⟨rfl, by decide⟩

/-- C3 amended: a `final=true` transcript for `turnId = T` followed by
another `final=true` transcript for the same `T` leaves the turn's text
equal to the second transcript (replace, not append), with no duplicate
turn; a later non-final delta instead appends to the finalized text. -/
theorem completed_then_completed_replaces (st : RTState) (T t1 t2 : String)
    (h : ∀ e ∈ st.conversation_history, e.role = "user" →
        e.item_id ≠ some T ∧ e.content ≠ t1 ∧ e.content ≠ t2) :
    (stepUserCompleted (stepUserCompleted st T t1) T t2).conversation_history
      = st.conversation_history ++ [⟨"user", t2, some T⟩] := by
  have h1 : (stepUserCompleted st T t1).conversation_history
      = st.conversation_history ++ [⟨"user", t1, some T⟩] := by
    rw [stepUserCompleted_hist,
      completedScan_eq_none st.conversation_history T t1
        (fun e he hr => ⟨(h e he hr).1, (h e he hr).2.1⟩)]
  rw [stepUserCompleted_hist, h1,
    completedScan_append_match st.conversation_history T t1 t2
      (fun e he hr => ⟨(h e he hr).1, (h e he hr).2.2⟩)]

/-- Witness for `completed_then_completed_replaces`: the corrected final
transcript replaces the first final transcript. -/
theorem completed_then_completed_replaces_witness :
    (stepUserCompleted (stepUserCompleted ⟨[], []⟩ "item_1" "hello") "item_1"
        "hello there").conversation_history
      = [⟨"user", "hello there", some "item_1"⟩] := by
  rw [completed_then_completed_replaces ⟨[], []⟩ "item_1" "hello" "hello there"
    (by intro e he; simp at he)]
  rfl

/-- C2 counterexample: after the placeholder for `item_1` was inserted
and an assistant turn followed, a late non-final transcript delta for
`item_1` is appended as a new (duplicate) user turn; the placeholder is
left in place, not overwritten. -/
theorem placeholder_then_delta_duplicates :
    (stepUserDelta (stepAssistantDelta (stepPlaceholderTimer ⟨[], []⟩ "item_1") "ok")
        "item_1" "hi").conversation_history
      = [⟨"user", "[User response not transcribed ]", some "item_1"⟩,
         ⟨"assistant", "ok", none⟩,
         ⟨"user", "hi", none⟩]
    ∧ ((stepUserDelta (stepAssistantDelta (stepPlaceholderTimer ⟨[], []⟩ "item_1") "ok")
        "item_1" "hi").conversation_history.countP
          (fun e => e.role == "user")) = 2 := by
  exact ⟨rfl, rfl⟩

/-- C2 amended: if no transcript for `T` arrived before the bounded timer
fires, exactly one placeholder turn for `T` exists; a late `final`
transcript (the `completed` handler) for `T` overwrites the placeholder
in place, matched by `turnId`, and is not appended as a duplicate; a late
non-final delta, however, is appended by role and does not overwrite. -/
theorem placeholder_unique_and_completed_overwrites (st : RTState) (T t : String)
    (htbi : alistGet st.transcripts_by_item T = none)
    (hid : ∀ e ∈ st.conversation_history, e.item_id ≠ some T)
    (hc : ∀ e ∈ st.conversation_history, e.role = "user" → e.content ≠ t) :
    (stepPlaceholderTimer st T).conversation_history
      = st.conversation_history
          ++ [⟨"user", placeholderText st.conversation_history, some T⟩]
    ∧ ((stepPlaceholderTimer st T).conversation_history.countP
        (fun e => e.item_id == some T)) = 1
    ∧ (stepUserCompleted (stepPlaceholderTimer st T) T t).conversation_history
      = st.conversation_history ++ [⟨"user", t, some T⟩] := by
  have hexists : userMsgExists st.conversation_history T = false := by
    rw [userMsgExists, List.any_eq_false]
    intro e he
    simp [hid e he]
  have hhist : (stepPlaceholderTimer st T).conversation_history
      = st.conversation_history
          ++ [⟨"user", placeholderText st.conversation_history, some T⟩] := by
    rw [stepPlaceholderTimer, htbi]
    simp [hexists]
  refine ⟨hhist, ?_, ?_⟩
  · rw [hhist, List.countP_append]
    have hz : st.conversation_history.countP (fun e => e.item_id == some T) = 0 := by
      rw [List.countP_eq_zero]
      intro e he
      simp [hid e he]
    rw [hz]
    simp [List.countP_cons]
  · rw [stepUserCompleted_hist, hhist,
      completedScan_append_match st.conversation_history T
        (placeholderText st.conversation_history) t
        (fun e he hr => ⟨hid e he, hc e he hr⟩)]

/-- Witness for `placeholder_unique_and_completed_overwrites`: from the
empty session state, the placeholder fires once, and the late completed
transcript replaces it in place. -/
theorem placeholder_unique_and_completed_overwrites_witness :
    (stepUserCompleted (stepPlaceholderTimer ⟨[], []⟩ "item_1") "item_1"
        "hi").conversation_history
      = [⟨"user", "hi", some "item_1"⟩] := by
  rw [(placeholder_unique_and_completed_overwrites ⟨[], []⟩ "item_1" "hi" rfl
    (by intro e he; simp at he) (by intro e he; simp at he)).2.2]
  rfl

theorem alistGet_alistSet {α : Type} (l : List (String × α)) (k : String) (v : α) :
    alistGet (alistSet l k v) k = some v := by
  induction l with
  | nil => simp [alistSet, alistGet]
  | cons p rest ih =>
    obtain ⟨k2, v2⟩ := p
    by_cases h : k2 = k <;> simp [alistSet, alistGet, h, ih]

theorem alistGet_alistDel {α : Type} (l : List (String × α)) (k : String) :
    alistGet (alistDel l k) k = none := by
  induction l with
  | nil => rfl
  | cons p rest ih =>
    obtain ⟨k2, v2⟩ := p
    by_cases h : k2 = k
    · subst h
      simpa [alistDel, List.filter_cons] using ih
    · have hb : (k2 != k) = true := by simp [h]
      simpa [alistDel, List.filter_cons, hb, alistGet, h] using ih

/-- C9: an `error` event whose code is in the server-error/rate-limit set
is recoverable (the loop just continues with the remaining events); any
other code is fatal: the loop sets `shutting_down`, drains for about one
second, closes the backend connection and stops processing. -/
theorem error_event_classification (st : LoopState) (code : Option String)
    (rest : List RTEvent) (hs : st.shutting_down = false)
    (hw : st.ws_connected = true) :
    (recoverableError code = true
      ↔ (code = some "server_error" ∨ code = some "rate_limit_exceeded"))
    ∧ (recoverableError code = true →
        runEvents st (.errorEvt code :: rest) = runEvents st rest)
    ∧ (recoverableError code = false →
        runEvents st (.errorEvt code :: rest)
          = ({ st with shutting_down := true }, [.sleepMs 1000, .closeConn])) := by
  refine ⟨?_, ?_, ?_⟩
  · simp [recoverableError]
  · intro h
    simp [runEvents, hs, h]
  · intro h
    simp [runEvents, hs, h, prepareShutdown, hw]

/-- Witness for `error_event_classification`: a `bad_request` error is
fatal and triggers the drain-and-close, while a `server_error` is
recoverable. -/
theorem error_event_classification_witness :
    runEvents ⟨⟨[], []⟩, true, false⟩ [.errorEvt (some "bad_request")]
      = (⟨⟨[], []⟩, true, true⟩, [.sleepMs 1000, .closeConn])
    ∧ runEvents ⟨⟨[], []⟩, true, false⟩ [.errorEvt (some "server_error")]
      = runEvents ⟨⟨[], []⟩, true, false⟩ [] :=
  ⟨(error_event_classification ⟨⟨[], []⟩, true, false⟩ (some "bad_request") [] rfl rfl).2.2
      (by decide),
   (error_event_classification ⟨⟨[], []⟩, true, false⟩ (some "server_error") [] rfl rfl).2.1
      (by decide)⟩

/-- C7: `initialize_session` makes at most 3 connection attempts; when
the first three attempts all fail it returns `False` (instead of
raising), after exactly 3 attempts with a backoff sleep between
consecutive failed attempts (2 sleeps). -/
theorem initialize_session_retry_bounded (outcome : Nat → Bool) :
    (connectRetryLoop outcome).2.1 ≤ 3
    ∧ ((∀ i, i < 3 → outcome i = false) →
        initialize_session outcome = false
        ∧ (connectRetryLoop outcome).2.1 = 3
        ∧ (connectRetryLoop outcome).2.2 = 2) := by
  constructor
  · by_cases h0 : outcome 0 = true
    · simp [connectRetryLoop, connectRetryLoopAux, max_retries, h0]
    · rw [Bool.not_eq_true] at h0
      by_cases h1 : outcome 1 = true
      · simp [connectRetryLoop, connectRetryLoopAux, max_retries, h0, h1]
      · rw [Bool.not_eq_true] at h1
        by_cases h2 : outcome 2 = true
        · simp [connectRetryLoop, connectRetryLoopAux, max_retries, h0, h1, h2]
        · rw [Bool.not_eq_true] at h2
          simp [connectRetryLoop, connectRetryLoopAux, max_retries, h0, h1, h2]
  · intro hall
    have h0 := hall 0 (by omega)
    have h1 := hall 1 (by omega)
    have h2 := hall 2 (by omega)
    refine ⟨?_, ?_, ?_⟩ <;>
      simp [initialize_session, connectRetryLoop, connectRetryLoopAux, max_retries,
        h0, h1, h2]

/-- Witness for `initialize_session_retry_bounded`: when every attempt
fails, initialization returns `False` after 3 attempts and 2 sleeps. -/
theorem initialize_session_retry_bounded_witness :
    initialize_session (fun _ => false) = false
    ∧ (connectRetryLoop (fun _ => false)).2.1 = 3
    ∧ (connectRetryLoop (fun _ => false)).2.2 = 2 :=
  (initialize_session_retry_bounded (fun _ => false)).2 (fun _ _ => rfl)

/-- C1 (failing input): tearing down call `CA1` with a one-turn
transcript closes the backend session and attempts the persistence
handoff exactly once, but the handoff call itself raises `TypeError`
(four positional arguments against a three-parameter method), so the
handoff never completes; the registry entry is removed and a second
teardown attempts nothing. -/
theorem teardown_store_never_completes :
    store_call_raises_type_error = true
    ∧ (teardownSession
        ⟨["MZ1"], [("CA1", ⟨[⟨"user", "hi", none⟩], "restaurant", true⟩)],
         [("CA1", ⟨["AAAA"], ["BBBB"]⟩)]⟩ "CA1" "MZ1").2
      = ⟨1, 1, 0⟩
    ∧ alistGet (teardownSession
        ⟨["MZ1"], [("CA1", ⟨[⟨"user", "hi", none⟩], "restaurant", true⟩)],
         [("CA1", ⟨["AAAA"], ["BBBB"]⟩)]⟩ "CA1" "MZ1").1.realtime_services "CA1" = none
    ∧ (teardownSession (teardownSession
        ⟨["MZ1"], [("CA1", ⟨[⟨"user", "hi", none⟩], "restaurant", true⟩)],
         [("CA1", ⟨["AAAA"], ["BBBB"]⟩)]⟩ "CA1" "MZ1").1 "CA1" "MZ1").2
      = ⟨0, 0, 0⟩ := by
  decide

/-- C8 counterexample: on a failed backend initialization, the concrete
run of `handle_stream` emits no spoken message toward the caller — the
handler only logs and returns — so the caller does not hear an apology,
although the session is torn down. -/
theorem init_failure_no_apology :
    ((handleStreamInitFailure ⟨["MZ1"], [], []⟩ "CA1" "MZ1"
        ⟨[], "restaurant", true⟩).2.2.all (fun a => ! a.isSay)) = true
    ∧ alistGet (handleStreamInitFailure ⟨["MZ1"], [], []⟩ "CA1" "MZ1"
        ⟨[], "restaurant", true⟩).1.realtime_services "CA1" = none := by
  decide

/-- C8 amended: whenever backend initialization fails, `handle_stream`
logs the failure and returns without playing any message to the caller;
the `finally` block still tears the session down: the backend connection
is closed, no persistence handoff completes, and the registry holds no
entry for the call or its stream afterwards. -/
theorem init_failure_teardown (m : WSManager) (c s : String)
    (svc : RTServiceState) (hw : svc.ws_connected = true) :
    ((handleStreamInitFailure m c s svc).2.2.all (fun a => ! a.isSay)) = true
    ∧ alistGet (handleStreamInitFailure m c s svc).1.realtime_services c = none
    ∧ alistGet (handleStreamInitFailure m c s svc).1.audio_chunks c = none
    ∧ s ∉ (handleStreamInitFailure m c s svc).1.active_connections
    ∧ (handleStreamInitFailure m c s svc).2.1.close_calls = 1
    ∧ (handleStreamInitFailure m c s svc).2.1.store_calls_completed = 0 := by
  have hsvc : alistGet (alistSet m.realtime_services c svc) c = some svc :=
    alistGet_alistSet m.realtime_services c svc
  by_cases hch : (alistGet m.audio_chunks c).isSome <;>
    refine ⟨by simp [handleStreamInitFailure, BridgeAction.isSay], ?_, ?_, ?_, ?_, ?_⟩ <;>
      simp [handleStreamInitFailure, teardownSession, hch, hsvc, hw,
        alistGet_alistDel, List.mem_filter, store_call_raises_type_error,
        store_realtime_conversation_params, handle_stream_store_args]

/-- Witness for `init_failure_teardown`: a concrete failed
initialization leaves no spoken message and an empty registry. -/
theorem init_failure_teardown_witness :
    ((handleStreamInitFailure ⟨["MZ1"], [], []⟩ "CA2" "MZ2"
        ⟨[], "salon", true⟩).2.2.all (fun a => ! a.isSay)) = true
    ∧ alistGet (handleStreamInitFailure ⟨["MZ1"], [], []⟩ "CA2" "MZ2"
        ⟨[], "salon", true⟩).1.realtime_services "CA2" = none
    ∧ alistGet (handleStreamInitFailure ⟨["MZ1"], [], []⟩ "CA2" "MZ2"
        ⟨[], "salon", true⟩).1.audio_chunks "CA2" = none
    ∧ "MZ2" ∉ (handleStreamInitFailure ⟨["MZ1"], [], []⟩ "CA2" "MZ2"
        ⟨[], "salon", true⟩).1.active_connections
    ∧ (handleStreamInitFailure ⟨["MZ1"], [], []⟩ "CA2" "MZ2"
        ⟨[], "salon", true⟩).2.1.close_calls = 1
    ∧ (handleStreamInitFailure ⟨["MZ1"], [], []⟩ "CA2" "MZ2"
        ⟨[], "salon", true⟩).2.1.store_calls_completed = 0 :=
  init_failure_teardown ⟨["MZ1"], [], []⟩ "CA2" "MZ2" ⟨[], "salon", true⟩ rfl

end VoiceBridge
